import Mathlib

/-!
# DealPulse extraction core — shallow embedding

A shallow embedding, in Lean 4, of the multi-strategy product-extraction
core of the DealPulse repository:

* `app/adapters/base.py`    — `ProductInfo`
* `app/adapters/factory.py` — `AdapterFactory.get_product_info`, `AdapterFactory.add_adapter`
* `app/adapters/html_adapter.py`  — heuristic markup strategy (`_extract_name`,
  `_extract_price`, `_parse_price_text` with its three regex patterns)
* `app/adapters/jsonld_adapter.py` — structured-data strategy
  (`_extract_from_jsonld`, `_extract_from_microdata`,
  `_extract_price_from_offers`, `_get_nested_value`)

Modelling conventions:

* Python floats are modelled as `ℚ` with exact decimal-literal semantics
  (`float("49.99")` ↦ `4999/100`); none of the verified properties depends on
  binary rounding.
* Python values flowing through the structured-data adapter (parsed JSON)
  are modelled by the inductive `PyVal`; Python `None` is `PyVal.none`.
* A strategy-internal exception is modelled by `Except.error`; the
  orchestrator's `try/except` around an adapter call catches it and
  continues, exactly as `factory.py` does.
* The source adapters fetch page content from the network themselves; per
  the specification's interface the fetched `content` is handed in, so the
  embedded strategy `extract` receives both `url` and `content`.
* Third-party parsing engines (BeautifulSoup's CSS selector engine) are
  modelled as an oracle (`Soup`) supplying, per selector string, the
  matched elements; the adapter logic over those results is embedded
  faithfully.
-/

set_option maxRecDepth 2000

namespace DealPulse

/-- `ProductInfo` dataclass from `app/adapters/base.py`: a name and a price. -/
structure ProductInfo where
  name : String
  price : ℚ
deriving DecidableEq, Repr

/-- A strategy (adapter) as seen by the orchestrator: `supports_url` plus an
extraction that may return a record (`Except.ok (some r)`), report nothing
found (`Except.ok none` — Python `None`), or raise an internal exception
(`Except.error`). -/
structure Strategy where
  supports : String → Bool
  extract : String → String → Except String (Option ProductInfo)

/-- `AdapterFactory` from `app/adapters/factory.py`: an ordered list of
registered strategies. -/
structure AdapterFactory where
  adapters : List Strategy

/-- The loop body of `AdapterFactory.get_product_info`: iterate adapters in
order; skip an adapter whose `supports_url` is false; call `get_product_info`
inside `try/except Exception` — an exception is logged and iteration
continues; a `None` result also continues; the first truthy `ProductInfo`
is returned; if the loop ends, return `None`. -/
def resolveList : List Strategy → String → String → Option ProductInfo
  | [], _, _ => none
  | a :: rest, url, content =>
    if a.supports url then
      match a.extract url content with
      | .ok (some p) => some p
      | .ok none => resolveList rest url content
      | .error _ => resolveList rest url content
    else
      resolveList rest url content

/-- `AdapterFactory.get_product_info(url)` from `app/adapters/factory.py`. -/
def get_product_info (factory : AdapterFactory) (url content : String) :
    Option ProductInfo :=
  resolveList factory.adapters url content

/-- `AdapterFactory.add_adapter(adapter, priority)` from
`app/adapters/factory.py`: priority `0` inserts at the front of the adapter
list, any other priority appends at the end. -/
def add_adapter (factory : AdapterFactory) (adapter : Strategy)
    (priority : Int) : AdapterFactory :=
  if priority = 0 then
    ⟨adapter :: factory.adapters⟩
  else
    ⟨factory.adapters ++ [adapter]⟩

/-! ## Python value model

Values produced by parsing embedded JSON (`extruct` output) are Python
objects: `None`, booleans, numbers, strings, lists and dicts. -/

/-- A parsed Python value; Python `None` is `PyVal.none`. -/
inductive PyVal where
  | none : PyVal
  | bool : Bool → PyVal
  | num : ℚ → PyVal
  | str : String → PyVal
  | list : List PyVal → PyVal
  | dict : List (String × PyVal) → PyVal

/-- Python truthiness (`if x:`): `None`, `False`, `0`, `""`, `[]`, `{}` are
falsy, everything else is truthy. -/
def truthy : PyVal → Bool
  | .none => false
  | .bool b => b
  | .num q => decide (q ≠ 0)
  | .str s => !(s.isEmpty)
  | .list xs => !(xs.isEmpty)
  | .dict fs => !(fs.isEmpty)

/-- Python `x is None`. -/
def isPyNone : PyVal → Bool
  | .none => true
  | _ => false

/-- Python `str()`. The adapters apply it only to values that are already
strings (identity) or that never occur in the verified scenarios; the
renderings of numbers, lists and dicts are schematic placeholders. -/
def pyStr : PyVal → String
  | .none => "None"
  | .bool true => "True"
  | .bool false => "False"
  | .str s => s
  | .num q => toString q
  | .list _ => "<list>"
  | .dict _ => "<dict>"

/-! ## Character-level string helpers

Python string primitives (`strip`, `split`, `startswith`, `in`,
`replace`) are embedded as structurally recursive functions over
character lists, so every definition evaluates inside the kernel. -/

/-- Python `str.strip()` / trimming: drop whitespace from both ends. -/
def trimChars (cs : List Char) : List Char :=
  ((cs.dropWhile Char.isWhitespace).reverse.dropWhile Char.isWhitespace).reverse

/-- Python `str.strip()` on a `String`. -/
def strTrim (s : String) : String :=
  (trimChars s.toList).asString

/-- Python `s.startswith(p)`. -/
def pyStartsWith (s p : String) : Bool :=
  p.toList.isPrefixOf s.toList

/-- Helper for Python substring containment: does `sub` occur in `s`? -/
def containsSubList (sub : List Char) : List Char → Bool
  | [] => sub.isEmpty
  | c :: rest => sub.isPrefixOf (c :: rest) || containsSubList sub rest

/-- Python `sub in s` on strings. -/
def containsSub (s sub : String) : Bool :=
  containsSubList sub.toList s.toList

/-- Python `key.split('/')` (always at least one group). -/
def splitSlash : List Char → List (List Char)
  | [] => [[]]
  | c :: rest =>
    let r := splitSlash rest
    if c = '/' then [] :: r
    else
      match r with
      | g :: gs => (c :: g) :: gs
      | [] => [[c]]

/-- Numeric value of a digit list (base 10). -/
def digitsVal (ds : List Char) : ℕ :=
  ds.foldl (fun a c => 10 * a + (c.toNat - 48)) 0

/-- Python `float(s)` on a decimal literal: optional sign, integer digits,
optional fractional part; at least one digit; anything else fails
(`ValueError`). The result is the exact decimal value, built with `mkRat`
(the string `a.b` with `k` fractional digits denotes
`(a * 10^k + b) / 10^k`). Exponent/`inf`/`nan` forms, which never arise
from the adapters' inputs of interest, are not modelled. -/
def parseDecimal (s : String) : Option ℚ :=
  let signed : ℤ × List Char :=
    match s.toList with
    | '-' :: r => (-1, r)
    | '+' :: r => (1, r)
    | cs => (1, cs)
  let sign := signed.1
  let ip := signed.2.takeWhile Char.isDigit
  let r1 := signed.2.dropWhile Char.isDigit
  match r1 with
  | [] =>
    if ip.isEmpty then Option.none
    else some (mkRat (sign * (digitsVal ip : ℤ)) 1)
  | '.' :: r2 =>
    let fp := r2.takeWhile Char.isDigit
    let r3 := r2.dropWhile Char.isDigit
    if r3.isEmpty && !(ip.isEmpty && fp.isEmpty) then
      some (mkRat (sign * ((digitsVal ip * 10 ^ fp.length + digitsVal fp : ℕ) : ℤ))
        (10 ^ fp.length))
    else Option.none
  | _ => Option.none

/-- Python `float(x)` on an arbitrary value: numbers coerce to themselves,
booleans to 0/1, strings are parsed (surrounding whitespace ignored);
`None`, lists and dicts raise `TypeError`, modelled as `Option.none`
(the adapters always catch `ValueError`/`TypeError` around this call). -/
def pyFloat : PyVal → Option ℚ
  | .num q => some q
  | .bool b => some (if b then mkRat 1 1 else mkRat 0 1)
  | .str s => parseDecimal (strTrim s)
  | _ => Option.none

/-! ## `JsonLdAdapter._get_nested_value` -/

/-- Python `data[key]` lookup on a dict (first binding wins; parsed JSON
dicts have unique keys). -/
def dictGet (fields : List (String × PyVal)) (key : String) : Option PyVal :=
  (fields.find? (fun kv => kv.1 == key)).map (·.2)

/-- The nested-path walk inside `_get_nested_value` for a key such as
`priceSpecification/price`: follow each component through dicts, yielding
Python `None` as soon as a component is missing or the value is not a
dict. -/
def walkPath : PyVal → List String → PyVal
  | v, [] => v
  | .dict fs, k :: ks =>
    match dictGet fs k with
    | some v => walkPath v ks
    | Option.none => .none
  | _, _ :: _ => .none

/-- The key loop of `JsonLdAdapter._get_nested_value` over a dict's fields:
for each candidate key in order, a slash key triggers the nested-path walk
(continuing to the next key only when the walk produced `None`); a plain
key present in the dict returns its value — the first element if the value
is a non-empty list, otherwise the value itself, even when that value is
`None` (which ends the key loop, exactly as the source's unconditional
`return value` does). -/
def lookupKeys (fields : List (String × PyVal)) : List String → PyVal
  | [] => .none
  | key :: rest =>
    if key.toList.contains '/' then
      let v := walkPath (.dict fields) ((splitSlash key.toList).map List.asString)
      if isPyNone v then lookupKeys fields rest else v
    else
      match dictGet fields key with
      | some (.list (x :: _)) => x
      | some v => v
      | Option.none => lookupKeys fields rest

/-- `JsonLdAdapter._get_nested_value(data, keys)`: `None` when `data` is not
a dict, otherwise the key loop. -/
def get_nested_value (data : PyVal) (keys : List String) : PyVal :=
  match data with
  | .dict fields => lookupKeys fields keys
  | _ => .none

/-! ## `JsonLdAdapter._extract_price_from_offers` -/

/-- The string cleaning applied to a string-valued price:
`price.replace('$', '').replace(',', '').strip()`. -/
def cleanPriceStr (s : String) : String :=
  strTrim (s.toList.filter (fun c => c ≠ '$' && c ≠ ',')).asString

/-- `JsonLdAdapter._extract_price_from_offers(offers)`: `None` for a falsy
`offers`; a single dict is wrapped into a one-element list; over a list,
the first offer dict whose candidate keys
`[price, lowPrice, highPrice, priceSpecification/price]` yield a non-`None`
value that coerces through `float` (strings cleaned first) wins; coercion
failure moves on to the next offer; a non-list, non-dict `offers` yields
`None`. -/
def extract_price_from_offers (offers : PyVal) : Option ℚ :=
  if !(truthy offers) then Option.none
  else
    let offers1 := match offers with
      | .dict fs => PyVal.list [.dict fs]
      | o => o
    match offers1 with
    | .list l =>
      l.findSome? fun offer =>
        match offer with
        | .dict ofs =>
          let price := get_nested_value (.dict ofs)
            ["price", "lowPrice", "highPrice", "priceSpecification/price"]
          if isPyNone price then Option.none
          else
            let price1 := match price with
              | .str s => PyVal.str (cleanPriceStr s)
              | p => p
            pyFloat price1
        | _ => Option.none
    | _ => Option.none

/-! ## `JsonLdAdapter._extract_from_jsonld` -/

/-- All-strings projection of a Python list, for `' '.join(xs)`. -/
def strListOf : List PyVal → Option (List String)
  | [] => some []
  | .str s :: rest => (strListOf rest).map (s :: ·)
  | _ => Option.none

/-- Python `' '.join(xs)`: raises `TypeError` (modelled as `Except.error`)
when some element is not a string. -/
def joinStrs (xs : List PyVal) : Except Unit String :=
  match strListOf xs with
  | some ss => .ok (String.intercalate " " ss)
  | Option.none => .error ()

/-- The `@type` rendering in `_extract_from_jsonld`: a list is joined with
`' '.join` (then `str()` of the resulting string is the identity); any
other value goes through `str()`. -/
def typeStr : PyVal → Except Unit String
  | .list xs => joinStrs xs
  | v => .ok (pyStr v)

/-- `JsonLdAdapter._extract_from_jsonld(jsonld_data)`: scan items in order;
for each dict item whose rendered `@type` contains `"Product"`, read the
name via `_get_nested_value(item, ['name', 'title'])` and the price via
`_extract_price_from_offers(item.get('offers', {}))`; when the name is
truthy and the price is not `None`, return
`ProductInfo(str(name), float(price))`; otherwise continue with the next
item. A `TypeError` from `' '.join` on a non-string `@type` list
propagates as an exception (`Except.error`). -/
def extract_from_jsonld : List PyVal → Except Unit (Option ProductInfo)
  | [] => .ok Option.none
  | item :: rest =>
    match item with
    | .dict fields =>
      match typeStr ((dictGet fields "@type").getD (.str "")) with
      | .error e => .error e
      | .ok ts =>
        if containsSub ts "Product" then
          let name := get_nested_value (.dict fields) ["name", "title"]
          match extract_price_from_offers ((dictGet fields "offers").getD (.dict [])) with
          | some p =>
            if truthy name then .ok (some ⟨pyStr name, p⟩)
            else extract_from_jsonld rest
          | Option.none => extract_from_jsonld rest
        else extract_from_jsonld rest
    | _ => extract_from_jsonld rest

/-! ## `JsonLdAdapter._extract_from_microdata` -/

/-- The inner offer loop of `_extract_from_microdata`: for each dict offer,
read `offer.get('properties', {})`, look up `['price', 'lowPrice']`; when
the price is not `None` and the name is truthy, try
`ProductInfo(str(name), float(price))`, a coercion failure continuing with
the next offer. -/
def microOfferLoop (name : PyVal) (l : List PyVal) : Option ProductInfo :=
  l.findSome? fun offer =>
    match offer with
    | .dict od =>
      let offer_props := (dictGet od "properties").getD (.dict [])
      let price := get_nested_value offer_props ["price", "lowPrice"]
      if !(isPyNone price) && truthy name then
        match pyFloat price with
        | some q => some ⟨pyStr name, q⟩
        | Option.none => Option.none
      else Option.none
    | _ => Option.none

/-- `JsonLdAdapter._extract_from_microdata(microdata)`: scan items in order;
for each dict item whose `type` contains `"Product"`, read
`properties.get('offers', [])` — raising (`Except.error`) when
`properties` is not a dict, as `.get` on a non-dict does — and run the
offer loop only when `offers` is a truthy list; a single offer dict is NOT
wrapped here, so it is skipped. Items yielding nothing continue the
scan. -/
def extract_from_microdata : List PyVal → Except Unit (Option ProductInfo)
  | [] => .ok Option.none
  | item :: rest =>
    match item with
    | .dict fields =>
      if containsSub (pyStr ((dictGet fields "type").getD (.str ""))) "Product" then
        let props := (dictGet fields "properties").getD (.dict [])
        match props with
        | .dict pf =>
          let offers := (dictGet pf "offers").getD (.list [])
          match offers with
          | .list l =>
            if l.isEmpty then extract_from_microdata rest
            else
              match microOfferLoop (get_nested_value props ["name"]) l with
              | some r => .ok (some r)
              | Option.none => extract_from_microdata rest
          | _ => extract_from_microdata rest
        | _ => .error ()
      else extract_from_microdata rest
    | _ => extract_from_microdata rest

instance {ε α : Type} [DecidableEq ε] [DecidableEq α] : DecidableEq (Except ε α)
  | .ok a, .ok b =>
    match decEq a b with
    | isTrue h => isTrue (h ▸ rfl)
    | isFalse h => isFalse (fun hab => h (by injection hab))
  | .error a, .error b =>
    match decEq a b with
    | isTrue h => isTrue (h ▸ rfl)
    | isFalse h => isFalse (fun hab => h (by injection hab))
  | .ok _, .error _ => isFalse (fun hab => Except.noConfusion hab)
  | .error _, .ok _ => isFalse (fun hab => Except.noConfusion hab)

/-! ## `HtmlAdapter` — regex price patterns

`_parse_price_text` runs `re.findall` with three patterns, in order:

1. `[\$£€¥₹]\s*(\d+[,.]?\d*\.?\d*)` — currency symbol before the number;
2. `(\d+[,.]?\d*\.?\d*)\s*[\$£€¥₹]` — currency symbol after the number;
3. `(\d+[,.]?\d*\.?\d*)` — a bare number.

For these patterns greedy left-to-right matching is exactly Python's
backtracking semantics: every character a greedy sub-match could give back
is a digit, comma or dot, and none of those can begin the remainder of the
pattern, so no backtracking alternative ever succeeds. The scanners below
implement `re.findall` (all non-overlapping matches of the capture group,
scanning left to right) with a fuel argument equal to the input length so
that every definition is structurally recursive; each step consumes at
least one character, so the fuel never runs out on the initial call. -/

/-- The currency-symbol character class `[\$£€¥₹]`. -/
def isCurrency (c : Char) : Bool :=
  c = '$' || c = '£' || c = '€' || c = '¥' || c = '₹'

/-- Splits an optional leading `[,.]` (the `[,.]?` piece). -/
def sepSplit : List Char → List Char × List Char
  | c :: rest => if c = ',' || c = '.' then ([c], rest) else ([], c :: rest)
  | [] => ([], [])

/-- Splits an optional leading `.` (the `\.?` piece). -/
def dotSplit : List Char → List Char × List Char
  | '.' :: rest => (['.'], rest)
  | l => ([], l)

/-- The part of the numeric token after the leading digit run:
`[,.]?\d*\.?\d*`, greedily; returns (consumed, rest). -/
def numTokTail (l : List Char) : List Char × List Char :=
  let s := sepSplit l
  let d2 := s.2.takeWhile Char.isDigit
  let r2 := s.2.dropWhile Char.isDigit
  let d := dotSplit r2
  let d3 := d.2.takeWhile Char.isDigit
  let r3 := d.2.dropWhile Char.isDigit
  (s.1 ++ d2 ++ d.1 ++ d3, r3)

/-- Greedy match of the capture group `\d+[,.]?\d*\.?\d*` at the start of
the input: fails without a leading digit; otherwise returns the matched
token and the rest of the input. -/
def numTok (cs : List Char) : Option (List Char × List Char) :=
  if (cs.takeWhile Char.isDigit).isEmpty then Option.none
  else
    let t := numTokTail (cs.dropWhile Char.isDigit)
    some (cs.takeWhile Char.isDigit ++ t.1, t.2)

/-- `re.findall` scanner for the bare-number pattern: at a digit, emit the
greedy token and resume after it; otherwise advance one character. -/
def findallBareAux : ℕ → List Char → List String
  | 0, _ => []
  | _, [] => []
  | fuel + 1, c :: rest =>
    if Char.isDigit c then
      match numTok (c :: rest) with
      | some (m, r) => m.asString :: findallBareAux fuel r
      | Option.none => findallBareAux fuel rest
    else findallBareAux fuel rest

/-- `re.findall` scanner for the currency-before pattern: at a currency
symbol, skip whitespace (`\s*`), require the numeric token, emit its
capture and resume after it; otherwise advance one character. -/
def findallCurBeforeAux : ℕ → List Char → List String
  | 0, _ => []
  | _, [] => []
  | fuel + 1, c :: rest =>
    if isCurrency c then
      match numTok (rest.dropWhile Char.isWhitespace) with
      | some (m, r) => m.asString :: findallCurBeforeAux fuel r
      | Option.none => findallCurBeforeAux fuel rest
    else findallCurBeforeAux fuel rest

/-- `re.findall` scanner for the currency-after pattern: at a digit, match
the greedy token, skip whitespace, require a currency symbol; emit the
capture and resume after the symbol; otherwise advance one character. -/
def findallCurAfterAux : ℕ → List Char → List String
  | 0, _ => []
  | _, [] => []
  | fuel + 1, c :: rest =>
    if Char.isDigit c then
      match numTok (c :: rest) with
      | some (m, r) =>
        match r.dropWhile Char.isWhitespace with
        | c2 :: r2 =>
          if isCurrency c2 then m.asString :: findallCurAfterAux fuel r2
          else findallCurAfterAux fuel rest
        | [] => findallCurAfterAux fuel rest
      | Option.none => findallCurAfterAux fuel rest
    else findallCurAfterAux fuel rest

/-- The three regex patterns of `HtmlAdapter._parse_price_text`, in source
order. -/
inductive PricePattern where
  | currencyBefore
  | currencyAfter
  | bareNumber
deriving DecidableEq

/-- The `price_patterns` list of `HtmlAdapter._extract_price`. -/
def price_patterns : List PricePattern :=
  [.currencyBefore, .currencyAfter, .bareNumber]

/-- `re.findall(pattern, text)` for the three price patterns. -/
def findall (p : PricePattern) (text : String) : List String :=
  match p with
  | .currencyBefore => findallCurBeforeAux text.toList.length text.toList
  | .currencyAfter => findallCurAfterAux text.toList.length text.toList
  | .bareNumber => findallBareAux text.toList.length text.toList

/-- The match cleaning in `_parse_price_text`: `match.replace(',', '')` —
every comma is removed. -/
def cleanMatch (m : String) : String :=
  (m.toList.filter (fun c => c ≠ ',')).asString

/-- `HtmlAdapter._parse_price_text(text, patterns)`: empty text yields
`None`; otherwise, for each pattern in order and each match in scan order,
remove commas, parse with `float`, and accept the first value in the
inclusive range `[0.01, 999999]`; parse failures and out-of-range values
are skipped. -/
def parse_price_text (text : String) : Option ℚ :=
  if text.isEmpty then Option.none
  else
    price_patterns.findSome? fun pat =>
      (findall pat text).findSome? fun m =>
        match parseDecimal (strTrim (cleanMatch m)) with
        | some price =>
          if mkRat 1 100 ≤ price ∧ price ≤ 999999 then some price
          else Option.none
        | Option.none => Option.none

/-! ## `HtmlAdapter` — markup scanning

BeautifulSoup's CSS selector engine is an external library; it is modelled
as an oracle: a `Soup` supplies, for each selector string, the first
matching element (`select_one`) and all matching elements (`select`).
`element.get_text(strip=True)` and `element.get('content', '').strip()`
both produce trimmed text, modelled by applying `strTrim` to the raw
element data. -/

/-- A matched element: its `content` attribute (`element.get('content',
'')`, for meta tags) and its raw text (`element.get_text`). -/
structure Element where
  attrContent : String
  text : String
deriving DecidableEq

/-- A parsed page, as the selector oracle. -/
structure Soup where
  selectOne : String → Option Element
  select : String → List Element

/-- The `selectors` list of `HtmlAdapter._extract_name`, in source order. -/
def name_selectors : List String :=
  ["h1",
   "[data-testid*=\"product-title\"]",
   "[class*=\"product-title\"]",
   "[class*=\"product-name\"]",
   "[id*=\"product-title\"]",
   "title",
   "meta[property=\"og:title\"]",
   "meta[name=\"title\"]"]

/-- `HtmlAdapter._extract_name(soup, url)`: for each selector in order, a
`meta` selector reads the first match's stripped `content` attribute, any
other selector reads the first match's stripped text; the first candidate
that is non-empty and longer than 3 characters is returned. -/
def extract_name (soup : Soup) : Option String :=
  name_selectors.findSome? fun selector =>
    if pyStartsWith selector "meta" then
      match soup.selectOne selector with
      | some el =>
        let content := strTrim el.attrContent
        if !content.isEmpty ∧ content.length > 3 then some content
        else Option.none
      | Option.none => Option.none
    else
      match soup.selectOne selector with
      | some el =>
        let text := strTrim el.text
        if !text.isEmpty ∧ text.length > 3 then some text
        else Option.none
      | Option.none => Option.none

/-- The `selectors` list of `HtmlAdapter._extract_price`, in source order. -/
def price_selectors : List String :=
  ["[class*=\"price\"]",
   "[data-testid*=\"price\"]",
   "[id*=\"price\"]",
   "meta[property=\"product:price:amount\"]",
   "meta[property=\"og:price:amount\"]",
   ".a-price-whole",
   ".notranslate"]

/-- `HtmlAdapter._extract_price(soup, url)`: for each selector in order, a
`meta` selector parses the first match's raw `content` attribute, any
other selector parses each matching element's stripped text in turn; the
first parsed, range-validated price wins. -/
def extract_price (soup : Soup) : Option ℚ :=
  price_selectors.findSome? fun selector =>
    if pyStartsWith selector "meta" then
      match soup.selectOne selector with
      | some el => parse_price_text el.attrContent
      | Option.none => Option.none
    else
      (soup.select selector).findSome? fun el =>
        parse_price_text (strTrim el.text)

/-- The extraction phase of `HtmlAdapter.get_product_info` after a
successful fetch and parse: require a name, then a price, else `None`. -/
def html_extract (soup : Soup) : Option ProductInfo :=
  match extract_name soup with
  | some name =>
    match extract_price soup with
    | some price => some ⟨name, price⟩
    | Option.none => Option.none
  | Option.none => Option.none

/-! ## Concrete demonstration inputs -/

/-- A strategy that supports every URL and raises internally. -/
def raisingStrategy : Strategy :=
  ⟨fun _ => true, fun _ _ => .error "parser exploded"⟩

/-- A strategy that supports every URL and finds nothing. -/
def notFoundStrategy : Strategy :=
  ⟨fun _ => true, fun _ _ => .ok Option.none⟩

/-- A strategy that supports every URL and returns a fixed record. -/
def foundStrategy : Strategy :=
  ⟨fun _ => true, fun _ _ => .ok (some ⟨"Test Widget", 5⟩)⟩

/-- Another fixed-record strategy, used for front registration. -/
def frontStrategy : Strategy :=
  ⟨fun _ => true, fun _ _ => .ok (some ⟨"Front Widget", 7⟩)⟩

/-- A page with an `h1` name and a `$49.99` price in a price-class
element. -/
def demoPriceSoup : Soup :=
  { selectOne := fun sel =>
      if sel = "h1" then some ⟨"", "Acme Widget"⟩ else Option.none,
    select := fun sel =>
      if sel = "[class*=\"price\"]" then [⟨"", "$49.99"⟩] else [] }

/-- A page carrying an `h1`, an `og:title` meta and a `meta[name="title"]`
simultaneously, all with valid text. -/
def demoAllTitlesSoup : Soup :=
  { selectOne := fun sel =>
      if sel = "h1" then some ⟨"", "Deluxe Gadget Pro"⟩
      else if sel = "meta[property=\"og:title\"]" then
        some ⟨"OG Gadget Title", ""⟩
      else if sel = "meta[name=\"title\"]" then
        some ⟨"Generic Gadget Title", ""⟩
      else Option.none,
    select := fun _ => [] }

/-- The same page with every non-meta selector empty, so the two meta
titles compete. -/
def demoMetaTitlesSoup : Soup :=
  { selectOne := fun sel =>
      if sel = "meta[property=\"og:title\"]" then
        some ⟨"OG Gadget Title", ""⟩
      else if sel = "meta[name=\"title\"]" then
        some ⟨"Generic Gadget Title", ""⟩
      else Option.none,
    select := fun _ => [] }

/-! ## Helper lemmas -/

lemma dropWhile_idem (p : α → Bool) (l : List α) :
    (l.dropWhile p).dropWhile p = l.dropWhile p := by
  cases h : l.dropWhile p with
  | nil => rfl
  | cons c t =>
    have hc := List.head?_dropWhile_not p l
    rw [h] at hc
    simp only [List.head?_cons] at hc
    rw [List.dropWhile_cons_of_neg (by simp [hc])]

lemma getLast?_dropWhile (p : α → Bool) (l : List α) (h : l.dropWhile p ≠ []) :
    (l.dropWhile p).getLast? = l.getLast? := by
  induction l with
  | nil => simp at h
  | cons c t ih =>
    by_cases hc : p c
    · rw [List.dropWhile_cons_of_pos hc] at h ⊢
      rw [ih h]
      have ht : t ≠ [] := by rintro rfl; simp at h
      obtain ⟨x, t', rfl⟩ : ∃ x t', t = x :: t' := by
        cases t with
        | nil => exact absurd rfl ht
        | cons x t' => exact ⟨x, t', rfl⟩
      rw [List.getLast?_cons_cons]
    · rw [List.dropWhile_cons_of_neg hc]

lemma trimChars_idem (cs : List Char) : trimChars (trimChars cs) = trimChars cs := by
  unfold trimChars
  have h1 : ((((cs.dropWhile Char.isWhitespace).reverse.dropWhile
      Char.isWhitespace).reverse).dropWhile Char.isWhitespace) =
      ((cs.dropWhile Char.isWhitespace).reverse.dropWhile Char.isWhitespace).reverse := by
    cases hYr : ((cs.dropWhile Char.isWhitespace).reverse.dropWhile
        Char.isWhitespace).reverse with
    | nil => rfl
    | cons c t =>
      have hYne : (cs.dropWhile Char.isWhitespace).reverse.dropWhile
          Char.isWhitespace ≠ [] := by
        intro hnil
        rw [hnil] at hYr
        simp at hYr
      have hgl : ((cs.dropWhile Char.isWhitespace).reverse.dropWhile
          Char.isWhitespace).getLast? = (cs.dropWhile Char.isWhitespace).head? := by
        rw [getLast?_dropWhile _ _ hYne]
        simp
      have hhd : ((cs.dropWhile Char.isWhitespace).reverse.dropWhile
          Char.isWhitespace).reverse.head? = (cs.dropWhile Char.isWhitespace).head? := by
        rw [List.head?_reverse, hgl]
      rw [hYr] at hhd
      simp only [List.head?_cons] at hhd
      have hA := List.head?_dropWhile_not Char.isWhitespace cs
      rw [← hhd] at hA
      have hA' : c.isWhitespace = false := by simpa using hA
      rw [List.dropWhile_cons_of_neg (by simp [hA'])]
  rw [h1, List.reverse_reverse, dropWhile_idem]

lemma strTrim_idem (s : String) : strTrim (strTrim s) = strTrim s := by
  unfold strTrim
  rw [List.toList_asString, trimChars_idem]

lemma strTrim_isEmpty_false_of_length (s : String) (h : 3 < s.length) :
    s.isEmpty = false := by
  cases hs : s.isEmpty with
  | false => rfl
  | true =>
    rw [String.isEmpty_iff] at hs
    subst hs
    simp at h

/-- Every price returned by `_parse_price_text` passed its validation
`0.01 <= price <= 999999`. -/
lemma parse_price_text_range (text : String) (p : ℚ)
    (h : parse_price_text text = some p) :
    mkRat 1 100 ≤ p ∧ p ≤ 999999 := by
  unfold parse_price_text at h
  split at h
  · exact absurd h (by simp)
  · obtain ⟨pat, _, hpat⟩ := List.exists_of_findSome?_eq_some h
    obtain ⟨m, _, hm⟩ := List.exists_of_findSome?_eq_some hpat
    split at hm
    · split at hm
      · rename_i price hparse hcond
        cases hm
        exact hcond
      · exact absurd hm (by simp)
    · exact absurd hm (by simp)

/-- Every price returned by `_extract_price` comes out of
`_parse_price_text`, hence passed the range validation. -/
lemma extract_price_range (soup : Soup) (p : ℚ)
    (h : extract_price soup = some p) :
    mkRat 1 100 ≤ p ∧ p ≤ 999999 := by
  unfold extract_price at h
  obtain ⟨sel, _, hsel⟩ := List.exists_of_findSome?_eq_some h
  split at hsel
  · split at hsel
    · exact parse_price_text_range _ _ hsel
    · exact absurd hsel (by simp)
  · obtain ⟨el, _, hel⟩ := List.exists_of_findSome?_eq_some hsel
    exact parse_price_text_range _ _ hel

/-- Every name returned by `_extract_name` is a stripped candidate that
passed the `text and len(text) > 3` validation. -/
lemma extract_name_shape (soup : Soup) (t : String)
    (h : extract_name soup = some t) :
    (∃ raw, t = strTrim raw) ∧ t.isEmpty = false ∧ 3 < t.length := by
  unfold extract_name at h
  obtain ⟨sel, _, hsel⟩ := List.exists_of_findSome?_eq_some h
  split at hsel
  · split at hsel
    · rename_i el heq
      dsimp only at hsel
      split at hsel
      · rename_i hcond
        cases hsel
        exact ⟨⟨el.attrContent, rfl⟩, by simpa using hcond.1, hcond.2⟩
      · exact absurd hsel (by simp)
    · exact absurd hsel (by simp)
  · split at hsel
    · rename_i el heq
      dsimp only at hsel
      split at hsel
      · rename_i hcond
        cases hsel
        exact ⟨⟨el.text, rfl⟩, by simpa using hcond.1, hcond.2⟩
      · exact absurd hsel (by simp)
    · exact absurd hsel (by simp)

/-- Unpacking a successful `html_extract`. -/
lemma html_extract_eq (soup : Soup) (r : ProductInfo)
    (h : html_extract soup = some r) :
    extract_name soup = some r.name ∧ extract_price soup = some r.price := by
  unfold html_extract at h
  split at h
  · rename_i name hname
    split at h
    · rename_i price hprice
      cases h
      exact ⟨hname, hprice⟩
    · exact absurd h (by simp)
  · exact absurd h (by simp)

/-- The orchestrator loop skips a supporting strategy that returns `None`
or raises. -/
lemma resolveList_skip (s : Strategy) (L : List Strategy) (url content : String)
    (hfail : s.supports url = true →
      s.extract url content = .ok Option.none ∨
        ∃ e, s.extract url content = .error e) :
    resolveList (s :: L) url content = resolveList L url content := by
  by_cases hs : s.supports url
  · rcases hfail hs with h | ⟨e, h⟩ <;> simp [resolveList, hs, h]
  · simp [resolveList, hs]

/-! ## Claim theorems -/

/-- C1: for every registered strategy list and every (url, content) input,
if the strategies before some supporting strategy `a` all fail, `a` itself
supports the URL and either raises an internal fault or returns NotFound,
and the next registered strategy `b` supports the URL and yields
`Found(r)`, then the orchestrator's resolve returns `r`: a fault inside
one strategy never aborts the whole resolution. -/
theorem c1_fault_isolated_fallback
    (pre : List Strategy) (a b : Strategy) (rest : List Strategy)
    (url content : String) (r : ProductInfo)
    (hpre : ∀ s ∈ pre, s.supports url = true →
      s.extract url content = .ok Option.none ∨
        ∃ e, s.extract url content = .error e)
    (ha : a.supports url = true)
    (hafail : a.extract url content = .ok Option.none ∨
      ∃ e, a.extract url content = .error e)
    (hb : b.supports url = true)
    (hbr : b.extract url content = .ok (some r)) :
    get_product_info ⟨pre ++ a :: b :: rest⟩ url content = some r := by
  unfold get_product_info
  induction pre with
  | nil =>
    rw [List.nil_append]
    rcases hafail with h | ⟨e, h⟩ <;> simp [resolveList, ha, h, hb, hbr]
  | cons s pre ih =>
    rw [List.cons_append, resolveList_skip s _ url content (hpre s (by simp))]
    exact ih (fun s' hs' h' => hpre s' (by simp [hs']) h')

/-- Witness for C1 at a concrete input: a raising strategy followed by a
succeeding one. -/
theorem c1_fault_isolated_fallback_witness :
    get_product_info ⟨[raisingStrategy, foundStrategy]⟩
      "https://example.com/p" "<html></html>" = some ⟨"Test Widget", 5⟩ :=
  c1_fault_isolated_fallback [] raisingStrategy foundStrategy []
    "https://example.com/p" "<html></html>" ⟨"Test Widget", 5⟩
    (fun s hs _ => absurd hs (List.not_mem_nil s))
    rfl (Or.inr ⟨"parser exploded", rfl⟩) rfl rfl

/-- C6: when every registered strategy either does not support the URL or
fails (returns NotFound or raises, the fault being caught at the registry
boundary), resolve returns NotFound — and, being a total function into
`Option ProductInfo`, it never surfaces an error. -/
theorem c6_exhausted_returns_notfound
    (adapters : List Strategy) (url content : String)
    (h : ∀ s ∈ adapters, s.supports url = true →
      s.extract url content = .ok Option.none ∨
        ∃ e, s.extract url content = .error e) :
    get_product_info ⟨adapters⟩ url content = Option.none := by
  unfold get_product_info
  induction adapters with
  | nil => rfl
  | cons s rest ih =>
    rw [resolveList_skip s rest url content (h s (by simp))]
    exact ih (fun s' hs' h' => h s' (by simp [hs']) h')

/-- Witness for C6 at a concrete input: a raising strategy and a
NotFound strategy. -/
theorem c6_exhausted_returns_notfound_witness :
    get_product_info ⟨[raisingStrategy, notFoundStrategy]⟩
      "https://example.com/q" "<div></div>" = Option.none := by
  refine c6_exhausted_returns_notfound [raisingStrategy, notFoundStrategy]
    "https://example.com/q" "<div></div>" ?_
  intro s hs _
  rcases List.mem_cons.mp hs with rfl | hs
  · exact Or.inr ⟨"parser exploded", rfl⟩
  · rcases List.mem_cons.mp hs with rfl | hs
    · exact Or.inl rfl
    · exact absurd hs (List.not_mem_nil s)

/-- C9: registering a strategy with priority 0 (the spec's
`atFront = true`) places it before all previously registered strategies,
and it is then the first strategy tried: if it supports the URL and
extracts a record, resolve returns that record. -/
theorem c9_front_registration_tried_first
    (factory : AdapterFactory) (s : Strategy) (url content : String)
    (r : ProductInfo)
    (hs : s.supports url = true)
    (hr : s.extract url content = .ok (some r)) :
    (add_adapter factory s 0).adapters = s :: factory.adapters ∧
    get_product_info (add_adapter factory s 0) url content = some r := by
  have hadds : (add_adapter factory s 0).adapters = s :: factory.adapters := by
    unfold add_adapter
    simp
  refine ⟨hadds, ?_⟩
  unfold get_product_info
  rw [hadds]
  simp [resolveList, hs, hr]

/-- Witness for C9 at a concrete input. -/
theorem c9_front_registration_tried_first_witness :
    (add_adapter ⟨[notFoundStrategy]⟩ frontStrategy 0).adapters =
      frontStrategy :: [notFoundStrategy] ∧
    get_product_info (add_adapter ⟨[notFoundStrategy]⟩ frontStrategy 0)
      "https://example.com/r" "<p></p>" = some ⟨"Front Widget", 7⟩ :=
  c9_front_registration_tried_first ⟨[notFoundStrategy]⟩ frontStrategy
    "https://example.com/r" "<p></p>" ⟨"Front Widget", 7⟩ rfl rfl

/-- C4: for the offers list `[{}, {"price": "25.00"}]`, the offers are
scanned in list order against the candidate key list
`[price, lowPrice, highPrice, priceSpecification/price]`; the empty first
offer yields nothing and the second offer's coercible price wins, so the
result is 25.00. -/
theorem c4_offers_scanned_in_list_order :
    isPyNone (get_nested_value (.dict [])
      ["price", "lowPrice", "highPrice", "priceSpecification/price"]) = true ∧
    extract_price_from_offers
      (.list [.dict [], .dict [("price", .str "25.00")]]) = some 25 :=
  ⟨by decide, by decide⟩

/-- C7 counterexample: in the microdata extraction path a single offer
object is NOT treated like its one-element list: the same product item
yields nothing with `offers` a single dict but a record with `offers` the
singleton list of that dict. -/
theorem c7_microdata_single_offer_counterexample :
    extract_from_microdata
      [.dict [("type", .str "Product"),
              ("properties",
                .dict [("name", .str "Widget Pro X"),
                       ("offers",
                         .dict [("properties",
                                  .dict [("price", .str "25.00")])])])]] =
      .ok Option.none ∧
    extract_from_microdata
      [.dict [("type", .str "Product"),
              ("properties",
                .dict [("name", .str "Widget Pro X"),
                       ("offers",
                         .list [.dict [("properties",
                                  .dict [("price", .str "25.00")])]])])]] =
      .ok (some ⟨"Widget Pro X", 25⟩) :=
  ⟨by decide, by decide⟩

/-- C7 amended: in the JSON-LD offers extraction
(`_extract_price_from_offers`), an offers value that is a single object is
treated identically to the one-element list containing that object; the
microdata path (`_extract_from_microdata`) instead processes only
list-shaped offers and skips a single object. -/
theorem c7_jsonld_single_offer_eq_singleton_list
    (fields : List (String × PyVal)) :
    extract_price_from_offers (.dict fields) =
      extract_price_from_offers (.list [.dict fields]) := by
  cases fields with
  | nil => rfl
  | cons f fs => rfl

/-- C2 counterexample: the structured-data extraction path applies no
range validation — candidate prices `0.00` and `1000000` are accepted into
a Found record, though both lie outside `[0.01, 999999]`. -/
theorem c2_jsonld_out_of_range_price_counterexample :
    extract_from_jsonld
      [.dict [("@type", .str "Product"), ("name", .str "Widget Pro X"),
              ("offers", .dict [("price", .str "0.00")])]] =
      .ok (some ⟨"Widget Pro X", 0⟩) ∧
    extract_from_jsonld
      [.dict [("@type", .str "Product"), ("name", .str "Widget Pro X"),
              ("offers", .dict [("price", .str "1000000")])]] =
      .ok (some ⟨"Widget Pro X", 1000000⟩) ∧
    ¬ ((0.01 : ℚ) ≤ 0) ∧ ¬ ((1000000 : ℚ) ≤ 999999) :=
  ⟨by decide, by decide, by norm_num, by norm_num⟩

/-- C2 amended: in the heuristic extraction path every price inside a
returned record lies in the inclusive range [0.01, 999999], and the
candidates `0.00`, `1000000` and non-numeric text are all rejected there;
the structured-data path (see the counterexample) rejects only
non-coercible text. -/
theorem c2_html_price_in_range (soup : Soup) (r : ProductInfo)
    (h : html_extract soup = some r) :
    ((0.01 : ℚ) ≤ r.price ∧ r.price ≤ 999999) ∧
    parse_price_text "0.00" = Option.none ∧
    parse_price_text "1000000" = Option.none ∧
    parse_price_text "not a price" = Option.none := by
  have hp := (html_extract_eq soup r h).2
  have hr := extract_price_range soup r.price hp
  have h001 : (0.01 : ℚ) = mkRat 1 100 := by rw [Rat.mkRat_eq_div]; norm_num
  exact ⟨⟨by rw [h001]; exact hr.1, hr.2⟩, by decide, by decide, by decide⟩

/-- Witness for C2 at a concrete page whose price parses to 49.99. -/
theorem c2_html_price_in_range_witness :
    (((0.01 : ℚ) ≤ mkRat 4999 100 ∧ (mkRat 4999 100 : ℚ) ≤ 999999) ∧
      parse_price_text "0.00" = Option.none ∧
      parse_price_text "1000000" = Option.none ∧
      parse_price_text "not a price" = Option.none) :=
  c2_html_price_in_range demoPriceSoup ⟨"Acme Widget", mkRat 4999 100⟩
    (by decide)

/-- C3 counterexample: the structured-data extraction path applies no
length validation to names — the two-character name `"ab"` is accepted
into a Found record. -/
theorem c3_jsonld_short_name_counterexample :
    extract_from_jsonld
      [.dict [("@type", .str "Product"), ("name", .str "ab"),
              ("offers", .dict [("price", .str "25.00")])]] =
      .ok (some ⟨"ab", 25⟩) ∧
    strTrim "ab" = "ab" ∧ "ab".length < 4 :=
  ⟨by decide, by decide, by decide⟩

/-- C3 amended: in the heuristic extraction path every returned record's
name is trimmed, non-empty and longer than 3 characters (shorter
candidates are rejected); the structured-data path (see the
counterexample) only requires the raw name value to be truthy. -/
theorem c3_html_name_trimmed_and_long (soup : Soup) (r : ProductInfo)
    (h : html_extract soup = some r) :
    strTrim r.name = r.name ∧ r.name ≠ "" ∧ 3 < r.name.length := by
  have hn := (html_extract_eq soup r h).1
  obtain ⟨⟨raw, hraw⟩, hne, hlen⟩ := extract_name_shape soup r.name hn
  refine ⟨?_, ?_, hlen⟩
  · rw [hraw, strTrim_idem]
  · intro h0
    rw [h0] at hne
    exact absurd hne (by decide)

/-- Witness for C3 at a concrete page whose name is `"Acme Widget"`. -/
theorem c3_html_name_trimmed_and_long_witness :
    strTrim "Acme Widget" = "Acme Widget" ∧ "Acme Widget" ≠ "" ∧
      3 < "Acme Widget".length :=
  c3_html_name_trimmed_and_long demoPriceSoup
    ⟨"Acme Widget", mkRat 4999 100⟩ (by decide)

/-- C5: heuristic name candidates are selected in the fixed source order,
in which the primary heading (`h1`) beats the `og:title` meta title, and
the `og:title` meta title beats the generic `meta[name="title"]` tag.
Part one: with all three present and valid, the heading's text is
returned. Part two: with every earlier (non-meta) selector empty and both
meta titles present and valid, the `og:title` content is returned. -/
theorem c5_name_priority_order (soup : Soup) :
    (∀ eh eo em,
      soup.selectOne "h1" = some eh →
      3 < (strTrim eh.text).length →
      soup.selectOne "meta[property=\"og:title\"]" = some eo →
      3 < (strTrim eo.attrContent).length →
      soup.selectOne "meta[name=\"title\"]" = some em →
      3 < (strTrim em.attrContent).length →
      extract_name soup = some (strTrim eh.text)) ∧
    (soup.selectOne "h1" = Option.none →
     soup.selectOne "[data-testid*=\"product-title\"]" = Option.none →
     soup.selectOne "[class*=\"product-title\"]" = Option.none →
     soup.selectOne "[class*=\"product-name\"]" = Option.none →
     soup.selectOne "[id*=\"product-title\"]" = Option.none →
     soup.selectOne "title" = Option.none →
     ∀ eo em,
      soup.selectOne "meta[property=\"og:title\"]" = some eo →
      3 < (strTrim eo.attrContent).length →
      soup.selectOne "meta[name=\"title\"]" = some em →
      3 < (strTrim em.attrContent).length →
      extract_name soup = some (strTrim eo.attrContent)) := by
  constructor
  · intro eh eo em h1 hlen1 _ _ _ _
    have hne1 : (strTrim eh.text).isEmpty = false :=
      strTrim_isEmpty_false_of_length _ hlen1
    simp [extract_name, name_selectors, List.findSome?_cons, h1, hne1, hlen1,
      show pyStartsWith "h1" "meta" = false from by decide]
  · intro hn1 hn2 hn3 hn4 hn5 hn6 eo em hog hleno hmt _
    have hneo : (strTrim eo.attrContent).isEmpty = false :=
      strTrim_isEmpty_false_of_length _ hleno
    simp [extract_name, name_selectors, List.findSome?_cons,
      hn1, hn2, hn3, hn4, hn5, hn6, hog, hneo, hleno,
      show pyStartsWith "h1" "meta" = false from by decide,
      show pyStartsWith "[data-testid*=\"product-title\"]" "meta" = false from
        by decide,
      show pyStartsWith "[class*=\"product-title\"]" "meta" = false from
        by decide,
      show pyStartsWith "[class*=\"product-name\"]" "meta" = false from
        by decide,
      show pyStartsWith "[id*=\"product-title\"]" "meta" = false from
        by decide,
      show pyStartsWith "title" "meta" = false from by decide,
      show pyStartsWith "meta[property=\"og:title\"]" "meta" = true from
        by decide]

/-- Witness for C5 on two concrete pages: with all three candidates
present the heading wins; with only the meta candidates present the
`og:title` wins over the generic title meta tag. -/
theorem c5_name_priority_order_witness :
    extract_name demoAllTitlesSoup = some "Deluxe Gadget Pro" ∧
    extract_name demoMetaTitlesSoup = some "OG Gadget Title" := by
  constructor
  · exact (c5_name_priority_order demoAllTitlesSoup).1
      ⟨"", "Deluxe Gadget Pro"⟩ ⟨"OG Gadget Title", ""⟩
      ⟨"Generic Gadget Title", ""⟩
      rfl (by decide) rfl (by decide) rfl (by decide)
  · exact (c5_name_priority_order demoMetaTitlesSoup).2
      rfl rfl rfl rfl rfl rfl
      ⟨"OG Gadget Title", ""⟩ ⟨"Generic Gadget Title", ""⟩
      rfl (by decide) rfl (by decide)

/-- C8: the price normalizer maps `"$49.99"` to 49.99, `"1,199.99"` to
1199.99 and bare `"29"` to 29.0 — currency symbols and comma thousands
separators are stripped before the base-10 parse — and rejects
unparseable text; the structured-data path's string cleaning behaves the
same way. -/
theorem c8_price_normalizer_examples :
    parse_price_text "$49.99" = some 49.99 ∧
    parse_price_text "1,199.99" = some 1199.99 ∧
    parse_price_text "29" = some 29 ∧
    extract_price_from_offers (.dict [("price", .str "$1,199.99")]) =
      some 1199.99 ∧
    extract_price_from_offers (.dict [("price", .str "twenty")]) =
      Option.none := by
  have h1 : (49.99 : ℚ) = mkRat 4999 100 := by rw [Rat.mkRat_eq_div]; norm_num
  have h2 : (1199.99 : ℚ) = mkRat 119999 100 := by
    rw [Rat.mkRat_eq_div]; norm_num
  rw [h1, h2]
  exact ⟨by decide, by decide, by decide, by decide, by decide⟩

/-- C10: in the heuristic price parser every comma in a matched numeric
string is removed before the base-10 parse, so commas act as thousands
separators, never as decimal separators: `"29,99"` parses to 2999.0, not
to 29.99. -/
theorem c10_commas_removed_before_parse :
    parse_price_text "29,99" = some 2999 ∧
    parse_price_text "29,99" ≠ some 29.99 ∧
    ∀ m : String, ',' ∉ (cleanMatch m).toList := by
  have h1 : (29.99 : ℚ) = mkRat 2999 100 := by rw [Rat.mkRat_eq_div]; norm_num
  rw [h1]
  refine ⟨by decide, by decide, ?_⟩
  intro m
  unfold cleanMatch
  rw [List.toList_asString]
  simp

end DealPulse
